import Mathlib

/-!
Verification of the cram-books-mcp GAS backend core.

This file gives a shallow embedding, in Lean 4, of the string
normalization utilities, header/column matching, ID sequencing, the
search scoring order, the preview/confirm transaction cache, the weekly
planner plan_set handler, and the student spreadsheet resolver of the
repository, together with theorems settling the specification claims
about them.

Sheets are modelled as functions from (column letter, row) to the display
string of the cell; requests are modelled as structures whose fields keep
the JavaScript truthiness conventions of the source (an absent numeric
field is 0, an absent string field is the empty string).
-/

set_option maxRecDepth 8192

/-- The ECMAScript white-space set used by String.prototype.trim and by
the \s character class: tab, LF, VT, FF, CR, space, NBSP, Ogham space,
the U+2000 block, line/paragraph separators, NNBSP, MMSP, ideographic
space and the BOM. -/
def isJsWs (c : Char) : Bool :=
  c.toNat = 0x9 || c.toNat = 0xA || c.toNat = 0xB || c.toNat = 0xC ||
  c.toNat = 0xD || c.toNat = 0x20 || c.toNat = 0xA0 || c.toNat = 0x1680 ||
  (0x2000 ≤ c.toNat && c.toNat ≤ 0x200A) || c.toNat = 0x2028 ||
  c.toNat = 0x2029 || c.toNat = 0x202F || c.toNat = 0x205F ||
  c.toNat = 0x3000 || c.toNat = 0xFEFF

/-- JavaScript String.prototype.trim: drop leading and trailing
white-space characters. -/
def jsTrim (s : String) : String :=
  ⟨((s.data.dropWhile isJsWs).reverse.dropWhile isJsWs).reverse⟩

/-- JavaScript String.prototype.length counts UTF-16 code units: code
points above U+FFFF count twice (surrogate pair). -/
def utf16Len (s : String) : Nat :=
  s.data.foldl (fun n c => n + (if 0x10000 ≤ c.toNat then 2 else 1)) 0

/-- Modelled from the spec: lib/common.ts is absent from src/ (only its
test suite is present).  The NFKC compatibility mapping of §4.1 is
modelled character by character for the compatibility characters the
repository exercises: the full-width ASCII block U+FF01..U+FF5E folds to
ASCII, the ideographic space folds to a plain space, the Roman numerals
U+2160..U+2162 fold to ASCII letter sequences, and the circled digits
U+2460, U+2461 and U+2469 fold to decimal digit sequences; every other
character is left unchanged. -/
def nfkcChar (c : Char) : List Char :=
  if 0xFF01 ≤ c.toNat ∧ c.toNat ≤ 0xFF5E then [Char.ofNat (c.toNat - 0xFEE0)]
  else if c.toNat = 0x3000 then [' ']
  else if c.toNat = 0x2160 then ['I']
  else if c.toNat = 0x2161 then ['I', 'I']
  else if c.toNat = 0x2162 then ['I', 'I', 'I']
  else if c.toNat = 0x2460 then ['1']
  else if c.toNat = 0x2461 then ['2']
  else if c.toNat = 0x2469 then ['1', '0']
  else [c]

/-- ASCII lower-casing of one character, as String.prototype.toLowerCase
acts on the characters produced by the modelled NFKC fold. -/
def lowerChar (c : Char) : Char :=
  if 65 ≤ c.toNat ∧ c.toNat ≤ 90 then Char.ofNat (c.toNat + 32) else c

/-- Modelled from the spec: lib/common.ts normalize is absent from src/.
Per §4.1 it converts to string, trims, Unicode-normalizes (NFKC), folds
case and removes all white-space including the full-width space.  The
source name is normalize; it is renamed here because Mathlib already
declares normalize. -/
def normalizeStr (s : String) : String :=
  ⟨((((jsTrim s).data.flatMap nfkcChar).map lowerChar).filter
      (fun c => !isJsWs c))⟩

/-- Modelled from the spec: lib/sheet_utils.ts headerKey is absent from
src/.  Per §4.1 it has the same semantics as normalize, under a separate
name for header comparison. -/
def headerKey (s : String) : String := normalizeStr s

theorem toNat_ofNat_small (n : Nat) (h : n < 0xD800) :
    (Char.ofNat n).toNat = n := by
  have hv : n.isValidChar := Or.inl h
  simp only [Char.ofNat, hv, dite_true]
  simp [Char.ofNatAux, Char.toNat, UInt32.toNat, BitVec.toNat_ofNatLt]

theorem nfkcChar_fixed_of_lt (c : Char) (h : c.toNat < 0x2160) :
    nfkcChar c = [c] := by
  unfold nfkcChar
  repeat rw [if_neg (by omega)]

theorem lowerChar_fixed_of_not_upper (c : Char)
    (h : ¬ (65 ≤ c.toNat ∧ c.toNat ≤ 90)) : lowerChar c = c := by
  unfold lowerChar
  rw [if_neg h]

/-- Characters below the compatibility range stay below it and leave the
upper-case range after lower-casing. -/
theorem lowerChar_stable_low (x : Char) (hx : x.toNat < 0x2160) :
    nfkcChar (lowerChar x) = [lowerChar x] ∧
      lowerChar (lowerChar x) = lowerChar x := by
  by_cases hc : 65 ≤ x.toNat ∧ x.toNat ≤ 90
  · have hval : (lowerChar x).toNat = x.toNat + 32 := by
      unfold lowerChar
      rw [if_pos hc]
      exact toNat_ofNat_small (x.toNat + 32) (by omega)
    refine ⟨nfkcChar_fixed_of_lt _ (by omega), ?_⟩
    exact lowerChar_fixed_of_not_upper _ (by omega)
  · have hfix : lowerChar x = x := lowerChar_fixed_of_not_upper x hc
    rw [hfix]
    exact ⟨nfkcChar_fixed_of_lt x hx, hfix⟩

/-- Every character emitted by the NFKC fold followed by lower-casing is
itself fixed by both maps. -/
theorem normFixed_of_mem_nfkc (e d : Char) (hd : d ∈ nfkcChar e) :
    nfkcChar (lowerChar d) = [lowerChar d] ∧
      lowerChar (lowerChar d) = lowerChar d := by
  unfold nfkcChar at hd
  by_cases h1 : 0xFF01 ≤ e.toNat ∧ e.toNat ≤ 0xFF5E
  · rw [if_pos h1] at hd
    simp only [List.mem_singleton] at hd
    have hv : (Char.ofNat (e.toNat - 0xFEE0)).toNat = e.toNat - 0xFEE0 :=
      toNat_ofNat_small _ (by omega)
    rw [hd]
    exact lowerChar_stable_low _ (by omega)
  · rw [if_neg h1] at hd
    by_cases h2 : e.toNat = 0x3000
    · rw [if_pos h2] at hd
      simp only [List.mem_singleton] at hd
      rw [hd]; decide
    · rw [if_neg h2] at hd
      by_cases h3 : e.toNat = 0x2160
      · rw [if_pos h3] at hd
        simp only [List.mem_singleton] at hd
        rw [hd]; decide
      · rw [if_neg h3] at hd
        by_cases h4 : e.toNat = 0x2161
        · rw [if_pos h4] at hd
          have hd2 : d = 'I' := by simpa using hd
          rw [hd2]; decide
        · rw [if_neg h4] at hd
          by_cases h5 : e.toNat = 0x2162
          · rw [if_pos h5] at hd
            have hd2 : d = 'I' := by simpa using hd
            rw [hd2]; decide
          · rw [if_neg h5] at hd
            by_cases h6 : e.toNat = 0x2460
            · rw [if_pos h6] at hd
              simp only [List.mem_singleton] at hd
              rw [hd]; decide
            · rw [if_neg h6] at hd
              by_cases h7 : e.toNat = 0x2461
              · rw [if_pos h7] at hd
                simp only [List.mem_singleton] at hd
                rw [hd]; decide
              · rw [if_neg h7] at hd
                by_cases h8 : e.toNat = 0x2469
                · rw [if_pos h8] at hd
                  have hd2 : d = '1' ∨ d = '0' := by simpa using hd
                  rcases hd2 with hd2 | hd2 <;> (rw [hd2]; decide)
                · rw [if_neg h8] at hd
                  simp only [List.mem_singleton] at hd
                  rw [hd]
                  rcases Nat.lt_or_ge e.toNat 0x2160 with hl | hl
                  · exact lowerChar_stable_low e hl
                  · have hfix : lowerChar e = e :=
                      lowerChar_fixed_of_not_upper e (by omega)
                    rw [hfix]
                    refine ⟨?_, hfix⟩
                    unfold nfkcChar
                    rw [if_neg h1, if_neg h2, if_neg h3, if_neg h4, if_neg h5,
                      if_neg h6, if_neg h7, if_neg h8]

theorem dropWhile_eq_self_of_none (l : List Char) (p : Char → Bool)
    (h : ∀ a ∈ l, p a = false) : l.dropWhile p = l := by
  cases l with
  | nil => rfl
  | cons a t =>
    rw [List.dropWhile_cons, h a (List.mem_cons_self a t)]
    simp

theorem map_eq_self_of_fixed (l : List Char) (f : Char → Char)
    (h : ∀ a ∈ l, f a = a) : l.map f = l := by
  induction l with
  | nil => rfl
  | cons a t ih =>
    simp only [List.map_cons, h a (List.mem_cons_self a t),
      ih (fun b hb => h b (List.mem_cons_of_mem a hb))]

theorem flatMap_eq_self_of_fixed (l : List Char) (f : Char → List Char)
    (h : ∀ a ∈ l, f a = [a]) : l.flatMap f = l := by
  induction l with
  | nil => rfl
  | cons a t ih =>
    simp only [List.flatMap_cons, h a (List.mem_cons_self a t),
      ih (fun b hb => h b (List.mem_cons_of_mem a hb))]
    rfl

/-- Every character of a normalized string is fixed by the NFKC fold and
by lower-casing, and is not white-space. -/
theorem mem_normalizeStr_fixed (s : String) (c : Char)
    (hc : c ∈ (normalizeStr s).data) :
    nfkcChar c = [c] ∧ lowerChar c = c ∧ isJsWs c = false := by
  unfold normalizeStr at hc
  simp only [List.mem_filter, List.mem_map, List.mem_flatMap,
    Bool.not_eq_eq_eq_not, Bool.not_true] at hc
  obtain ⟨⟨d, ⟨e, _, hde⟩, hdc⟩, hws⟩ := hc
  obtain ⟨hn, hl⟩ := normFixed_of_mem_nfkc e d hde
  subst hdc
  exact ⟨hn, hl, hws⟩

/-- Claim C9: normalize is idempotent: for all input strings s,
normalize (normalize s) = normalize s; in particular it trims,
NFKC-normalizes full-width forms, lowercases and removes all white-space
including the full-width space, so the full-width ABC maps to "abc" and
the header with an internal space maps to its compact lower-case form. -/
theorem C9_normalize_idempotent (s : String) :
    normalizeStr (normalizeStr s) = normalizeStr s ∧
      normalizeStr "ＡＢＣ" = "abc" ∧
      normalizeStr "参考書 ID" = "参考書id" := by
  refine ⟨?_, by decide, by decide⟩
  have hfix := mem_normalizeStr_fixed s
  have hdata : jsTrim (normalizeStr s) = normalizeStr s := by
    unfold jsTrim
    rw [dropWhile_eq_self_of_none _ _ (fun a ha => (hfix a ha).2.2)]
    rw [dropWhile_eq_self_of_none _ _
      (fun a ha => (hfix a (List.mem_reverse.mp ha)).2.2)]
    rw [List.reverse_reverse]
  generalize hgen : normalizeStr s = t at hfix hdata ⊢
  conv_lhs => unfold normalizeStr
  rw [hdata]
  rw [flatMap_eq_self_of_fixed _ _ (fun a ha => (hfix a ha).1)]
  rw [map_eq_self_of_fixed _ _ (fun a ha => (hfix a ha).2.1)]
  rw [List.filter_eq_self.mpr (fun a ha => by rw [(hfix a ha).2.2]; rfl)]

/-- Index of the first header whose headerKey equals the given key. -/
def firstHeaderIdx (key : String) : List String → Option Nat
  | [] => none
  | h :: t =>
    if headerKey h = key then some 0 else (firstHeaderIdx key t).map (· + 1)

/-- Modelled from the spec: lib/sheet_utils.ts pickCol is absent from
src/ (only its test suite is present).  The test suite fixes the
iteration order: candidates are scanned in candidate order and, for the
first candidate that matches some header, the position of the first such
header is returned; -1 when nothing matches.  (The §4.1 wording instead
claims header-order priority, which the test expecting index 3 for
candidates [単元負荷, 参考書ID] contradicts; see the C7 theorems.) -/
def pickCol (headers candidates : List String) : Int :=
  match candidates with
  | [] => -1
  | c :: rest =>
    match firstHeaderIdx (headerKey c) headers with
    | some i => Int.ofNat i
    | none => pickCol headers rest

/-- The literal §4.1 wording of pickColumn: the position of the first
header, in header order, whose key matches any candidate.  Kept only to
compare with the behaviour the test suite pins down. -/
def pickColHeaderOrder (headers candidates : List String) : Int :=
  match headers with
  | [] => -1
  | _ :: _ =>
    match headers.findIdx?
        (fun h => candidates.any (fun c => headerKey h == headerKey c)) with
    | some i => Int.ofNat i
    | none => -1

theorem firstHeaderIdx_some_iff (key : String) (l : List String) (i : Nat) :
    firstHeaderIdx key l = some i ↔
      ∃ h : i < l.length, headerKey (l.get ⟨i, h⟩) = key ∧
        ∀ j, (hj : j < l.length) → j < i → headerKey (l.get ⟨j, hj⟩) ≠ key := by
  induction l generalizing i with
  | nil => simp [firstHeaderIdx]
  | cons a t ih =>
    rw [firstHeaderIdx]
    by_cases hp : headerKey a = key
    · rw [if_pos hp]
      constructor
      · rintro h
        injection h with h
        subst h
        exact ⟨by simp, by simpa using hp, fun j hj hji => by omega⟩
      · rintro ⟨h, hpi, hprev⟩
        cases i with
        | zero => rfl
        | succ k =>
          exact absurd hp (hprev 0 (by simp) (by omega))
    · rw [if_neg hp]
      simp only [Option.map_eq_some']
      constructor
      · rintro ⟨k, hk, rfl⟩
        obtain ⟨hlt, hpk, hprev⟩ := (ih k).mp hk
        refine ⟨by simpa using Nat.succ_lt_succ hlt, by simpa using hpk, ?_⟩
        intro j hj hji
        cases j with
        | zero => simpa using hp
        | succ m =>
          have hm : m < t.length := by simpa using hj
          have := hprev m hm (by omega)
          simpa using this
      · rintro ⟨hlt, hpk, hprev⟩
        cases i with
        | zero => exact absurd (by simpa using hpk) hp
        | succ k =>
          refine ⟨k, ?_, rfl⟩
          apply (ih k).mpr
          refine ⟨by simpa using hlt, by simpa using hpk, ?_⟩
          intro j hj hji
          have := hprev (j + 1) (by simpa using Nat.succ_lt_succ hj) (by omega)
          simpa using this

theorem firstHeaderIdx_none_iff (key : String) (l : List String) :
    firstHeaderIdx key l = none ↔ ∀ a ∈ l, headerKey a ≠ key := by
  induction l with
  | nil => simp [firstHeaderIdx]
  | cons a t ih =>
    rw [firstHeaderIdx]
    by_cases hp : headerKey a = key
    · simp [hp]
    · rw [if_neg hp]
      simp only [Option.map_eq_none', ih, List.mem_cons]
      constructor
      · rintro h b (rfl | hb)
        · exact hp
        · exact h b hb
      · intro h b hb
        exact h b (Or.inr hb)

/-- Claim C7 counterexample: with the test-suite headers and the
candidates [単元負荷, 参考書ID], the implementation pinned by the tests
returns 3 (the header matching the first candidate), while the claimed
rule, the first header in header order matching any candidate, returns
0, since the header at position 0 matches the second candidate. -/
theorem C7_counterexample :
    pickCol ["参考書ID", "参考書名", "教科", "単元負荷"]
        ["単元負荷", "参考書ID"] = 3 ∧
      pickColHeaderOrder ["参考書ID", "参考書名", "教科", "単元負荷"]
        ["単元負荷", "参考書ID"] = 0 ∧
      (3 : Int) ≠ 0 := by
  refine ⟨by decide, by decide, by decide⟩

/-- Claim C7 (amended): pickColumn scans candidates in candidate order;
for the first candidate whose headerKey equals the headerKey of some
header, it returns the position of the first such header; it returns -1
exactly when no header/candidate pair matches (hence for empty headers or
empty candidates); matching is exact equality of normalized keys, never
substring. -/
theorem C7_pickCol_amended (headers candidates : List String) :
    (headers = [] ∨ candidates = [] → pickCol headers candidates = -1) ∧
    (pickCol headers candidates = -1 ↔
      ∀ h ∈ headers, ∀ c ∈ candidates, headerKey h ≠ headerKey c) ∧
    (∀ i : Nat, pickCol headers candidates = Int.ofNat i →
      ∃ hi : i < headers.length, ∃ k : Nat, ∃ hk : k < candidates.length,
        headerKey (headers.get ⟨i, hi⟩) =
            headerKey (candidates.get ⟨k, hk⟩) ∧
          (∀ j, (hj : j < headers.length) → j < i →
            headerKey (headers.get ⟨j, hj⟩) ≠
              headerKey (candidates.get ⟨k, hk⟩)) ∧
          (∀ m, (hm : m < candidates.length) → m < k →
            ∀ h ∈ headers,
              headerKey h ≠ headerKey (candidates.get ⟨m, hm⟩))) := by
  refine ⟨?_, ?_, ?_⟩
  · rintro (rfl | rfl)
    · induction candidates with
      | nil => rfl
      | cons c rest ih =>
        rw [pickCol]
        rw [firstHeaderIdx]
        exact ih
    · rfl
  · induction candidates with
    | nil => simp [pickCol]
    | cons c rest ih =>
      rw [pickCol]
      split
      next i hfi =>
        constructor
        · intro h
          cases h
        · intro h
          obtain ⟨hlt, heq, -⟩ := (firstHeaderIdx_some_iff _ _ _).mp hfi
          exact absurd heq
            (h _ (List.get_mem headers _ _) c (List.mem_cons_self c rest))
      next hfi =>
        rw [ih]
        have hnone := (firstHeaderIdx_none_iff (headerKey c) headers).mp hfi
        constructor
        · intro h a ha b hb
          rcases List.mem_cons.mp hb with rfl | hb2
          · exact hnone a ha
          · exact h a ha b hb2
        · intro h a ha b hb
          exact h a ha b (List.mem_cons_of_mem c hb)
  · induction candidates with
    | nil =>
      intro i hi
      cases hi
    | cons c rest ih =>
      intro i hi
      rw [pickCol] at hi
      split at hi
      next i0 hfi =>
        have hi0 : i0 = i := by
          injection hi
        subst hi0
        obtain ⟨hlt, heq, hprev⟩ := (firstHeaderIdx_some_iff _ _ _).mp hfi
        refine ⟨hlt, 0, by simp, by simpa using heq, ?_, ?_⟩
        · intro j hj hji
          simpa using hprev j hj hji
        · intro m hm hml h hh
          omega
      next hfi =>
        obtain ⟨hlen, k, hk, heq, hprevh, hprevc⟩ := ih i hi
        have hnone := (firstHeaderIdx_none_iff (headerKey c) headers).mp hfi
        refine ⟨hlen, k + 1, by simpa using Nat.succ_lt_succ hk,
          by simpa using heq, ?_, ?_⟩
        · intro j hj hji
          simpa using hprevh j hj hji
        · intro m hm hml h hh
          cases m with
          | zero =>
            simpa using hnone h hh
          | succ n =>
            have hn : n < rest.length := by simpa using hm
            have := hprevc n hn (by omega) h hh
            simpa using this

/-- Witness for C7: the amended characterization applied to a concrete
match, discharging the result hypothesis by evaluation. -/
theorem C7_pickCol_amended_witness :
    ∃ hi : 0 < (["ID", "Title"] : List String).length, ∃ k : Nat,
      ∃ hk : k < (["id"] : List String).length,
        headerKey ((["ID", "Title"] : List String).get ⟨0, hi⟩) =
            headerKey ((["id"] : List String).get ⟨k, hk⟩) ∧
          (∀ j, (hj : j < (["ID", "Title"] : List String).length) → j < 0 →
            headerKey ((["ID", "Title"] : List String).get ⟨j, hj⟩) ≠
              headerKey ((["id"] : List String).get ⟨k, hk⟩)) ∧
          (∀ m, (hm : m < (["id"] : List String).length) → m < k →
            ∀ h ∈ (["ID", "Title"] : List String),
              headerKey h ≠ headerKey ((["id"] : List String).get ⟨m, hm⟩)) :=
  (C7_pickCol_amended ["ID", "Title"] ["id"]).2.2 0 (by decide)

/-- A sheet cell as the ID scanner sees it: a string value, or a
non-string value (null, undefined, a number) which the scanner ignores. -/
inductive IdCell where
  | str (v : String)
  | other
deriving DecidableEq

def isAsciiDigit (c : Char) : Bool :=
  decide (48 ≤ c.toNat) && decide (c.toNat ≤ 57)

/-- Numeric value of a list of ASCII digits. -/
def digitsVal (cs : List Char) : Nat :=
  cs.foldl (fun n c => n * 10 + (c.toNat - 48)) 0

/-- Modelled from the spec: lib/id_rules.ts is absent from src/ (only
its test suite is present).  idSuffix extracts the numeric suffix of a
cell consisting of the given ID stem followed by one or more ASCII
digits; anything else yields none. -/
def idSuffix (stem : String) (cell : String) : Option Nat :=
  if stem.data.isPrefixOf cell.data then
    let rest := cell.data.drop stem.data.length
    if rest ≠ [] ∧ rest.all isAsciiDigit then some (digitsVal rest) else none
  else none

/-- Suffix of one cell: non-string cells are ignored. -/
def cellSuffix (stem : String) : IdCell → Option Nat
  | .str v => idSuffix stem v
  | .other => none

/-- Suffix of one row at the ID column; a negative or out-of-range
column index yields none. -/
def rowSuffix (stem : String) (idCol : Int) (row : List IdCell) : Option Nat :=
  if h : 0 ≤ idCol ∧ idCol.toNat < row.length then
    cellSuffix stem (row.get ⟨idCol.toNat, h.2⟩)
  else none

/-- The running-maximum scan over the data rows, as the source loop
accumulates the largest numeric suffix seen so far. -/
def maxSuffixScan (stem : String) (idCol : Int) :
    List (List IdCell) → Nat → Nat
  | [], acc => acc
  | row :: rest, acc =>
    maxSuffixScan stem idCol rest (max acc ((rowSuffix stem idCol row).getD 0))

/-- Zero-padding to width 3; wider numbers print unpadded. -/
def pad3 (n : Nat) : String :=
  if n < 10 then "00" ++ toString n
  else if n < 100 then "0" ++ toString n
  else toString n

/-- Modelled from the spec: lib/id_rules.ts nextIdForPrefix is absent
from src/.  Per §4.2 it scans all rows, skipping the header row, for IDs
beginning with the stem followed by digits, takes the maximum numeric
suffix found (0 if none), increments and formats zero-padded to width
3. -/
def nextIdForPrefix (stem : String) (allValues : List (List IdCell))
    (idCol : Int) : String :=
  stem ++ pad3 (maxSuffixScan stem idCol (allValues.drop 1) 0 + 1)

theorem maxSuffixScan_eq_foldr (stem : String) (idCol : Int)
    (rows : List (List IdCell)) (acc : Nat) :
    maxSuffixScan stem idCol rows acc =
      max acc ((rows.map (fun r => (rowSuffix stem idCol r).getD 0)).foldr
        max 0) := by
  induction rows generalizing acc with
  | nil => simp [maxSuffixScan]
  | cons row rest ih =>
    rw [maxSuffixScan, ih]
    simp only [List.map_cons, List.foldr_cons]
    omega

/-- Claim C8: nextIdForPrefix skips the header row, takes the maximum
numeric suffix among cells that start with the stem followed by digits
(0 if none), adds one, and formats the result as the stem plus a
zero-padded 3-digit number that grows wider without truncation beyond
999; a negative column index yields the stem plus 001; non-string cells
are ignored; the spec examples gMB001/gMB002/gMB005 to gMB006, empty
data to gMB001 and gMB999 to gMB1000 hold. -/
theorem C8_nextIdForPrefix_rules :
    (∀ stem (allValues : List (List IdCell)) (idCol : Int), idCol < 0 →
      nextIdForPrefix stem allValues idCol = stem ++ "001") ∧
    (∀ stem hdr hdr2 (rows : List (List IdCell)) (idCol : Int),
      nextIdForPrefix stem (hdr :: rows) idCol =
        nextIdForPrefix stem (hdr2 :: rows) idCol) ∧
    (∀ stem (allValues : List (List IdCell)) (idCol : Int),
      nextIdForPrefix stem allValues idCol =
        stem ++ pad3 (((allValues.drop 1).map
          (fun r => (rowSuffix stem idCol r).getD 0)).foldr max 0 + 1)) ∧
    (∀ stem hdr (rows : List (List IdCell)) row (idCol : Int),
      rowSuffix stem idCol row = none →
      nextIdForPrefix stem (hdr :: row :: rows) idCol =
        nextIdForPrefix stem (hdr :: rows) idCol) ∧
    (∀ n : Nat, 1000 ≤ n → pad3 n = toString n) ∧
    nextIdForPrefix "gMB"
      [[.str "参考書ID", .str "タイトル"],
        [.str "gMB001", .str "数学I"],
        [.str "gMB002", .str "数学II"],
        [.str "gMB005", .str "数学III"]] 0 = "gMB006" ∧
    nextIdForPrefix "gMB" [[.str "参考書ID", .str "タイトル"]] 0 = "gMB001" ∧
    nextIdForPrefix "gMB" [[.str "参考書ID"], [.str "gMB999"]] 0 = "gMB1000" := by
  refine ⟨?_, ?_, ?_, ?_, ?_, by decide, by decide, by decide⟩
  · intro stem allValues idCol hneg
    have hnone : ∀ rows acc, maxSuffixScan stem idCol rows acc = acc := by
      intro rows
      induction rows with
      | nil => intro acc; rfl
      | cons row rest ih =>
        intro acc
        rw [maxSuffixScan]
        have : rowSuffix stem idCol row = none := by
          unfold rowSuffix
          rw [dif_neg (by omega)]
        rw [this, ih]
        simp
    unfold nextIdForPrefix
    rw [hnone]
    rfl
  · intro stem hdr hdr2 rows idCol
    rfl
  · intro stem allValues idCol
    unfold nextIdForPrefix
    rw [maxSuffixScan_eq_foldr]
    simp
  · intro stem hdr rows row idCol hnone
    unfold nextIdForPrefix
    simp only [List.drop_one, List.tail_cons]
    rw [maxSuffixScan, hnone]
    simp
  · intro n hn
    unfold pad3
    rw [if_neg (by omega), if_neg (by omega)]

/-- Witness for C8: the negative-column conjunct applied to a concrete
table. -/
theorem C8_nextIdForPrefix_rules_witness :
    nextIdForPrefix "gMB" [[.str "参考書ID"], [.str "gMB007"]] (-1) =
      "gMB" ++ "001" :=
  C8_nextIdForPrefix_rules.1 "gMB" [[.str "参考書ID"], [.str "gMB007"]] (-1)
    (by decide)

/-- Modelled from the spec: the books/students update and delete
handlers and their shared PendingChange cache are absent from src/ (only
handlers/__tests__/books.test.ts is present).  Per §3 and §4.4 a
PendingChange holds the target id the token was issued for, the stored
payload (abstracted as the state update it would apply), and the
absolute expiry timestamp. -/
structure PendingChange (σ : Type) where
  targetId : String
  apply : σ → σ
  expiry : Nat

/-- The process-wide preview/confirm cache: entries keyed by entity
namespace and token. -/
def ConfirmCache (σ : Type) := List (String × String × PendingChange σ)

/-- The fixed TTL of §4.4: 5 minutes, in milliseconds. -/
def CONFIRM_TTL_MS : Nat := 5 * 60 * 1000

def cacheLookup {σ : Type} (c : ConfirmCache σ) (ns tok : String) :
    Option (PendingChange σ) :=
  (List.find? (fun e => e.1 == ns && e.2.1 == tok) c).map (fun e => e.2.2)

def cacheErase {σ : Type} (c : ConfirmCache σ) (ns tok : String) :
    ConfirmCache σ :=
  List.filter (fun e => !(e.1 == ns && e.2.1 == tok)) c

/-- Modelled from the spec §4.4 Propose: stores a PendingChange keyed by
a freshly generated token under the entity namespace, with expiry
now + 5 minutes; the sheet is not mutated. -/
def propose {σ : Type} (c : ConfirmCache σ) (ns tid : String)
    (payload : σ → σ) (tok : String) (now : Nat) : ConfirmCache σ :=
  (ns, tok, ⟨tid, payload, now + CONFIRM_TTL_MS⟩) :: c

inductive ConfirmResult where
  | applied
  | err (code : String)
deriving DecidableEq

/-- Modelled from the spec §4.4 Confirm: looks the token up within the
namespace; CONFIRM_EXPIRED if unknown or past expiry (lazy check at
lookup time); CONFIRM_MISMATCH if the entry was issued for a different
target id; NOT_FOUND if the re-read target no longer exists (modelled by
the targetExists oracle); on success applies the stored payload, deletes
the entry (single use) and returns the updated state. -/
def confirm {σ : Type} (c : ConfirmCache σ) (ns tid tok : String)
    (now : Nat) (targetExists : σ → String → Bool) (st : σ) :
    ConfirmResult × ConfirmCache σ × σ :=
  match cacheLookup c ns tok with
  | none => (.err "CONFIRM_EXPIRED", c, st)
  | some pc =>
    if pc.expiry < now then (.err "CONFIRM_EXPIRED", c, st)
    else if pc.targetId ≠ tid then (.err "CONFIRM_MISMATCH", c, st)
    else if targetExists st tid = false then (.err "NOT_FOUND", c, st)
    else (.applied, cacheErase c ns tok, pc.apply st)

theorem cacheLookup_erase {σ : Type} (c : ConfirmCache σ) (ns tok : String) :
    cacheLookup (cacheErase c ns tok) ns tok = none := by
  induction c with
  | nil => rfl
  | cons e rest ih =>
    unfold cacheErase at ih ⊢
    rw [List.filter_cons]
    by_cases hp : (e.1 == ns && e.2.1 == tok) = true
    · rw [hp]
      simpa using ih
    · have hp2 : (!(e.1 == ns && e.2.1 == tok)) = true := by
        simp only [Bool.not_eq_true'] at hp ⊢
        simpa using hp
      rw [hp2]
      simp only [if_true]
      unfold cacheLookup at ih ⊢
      rw [List.find?_cons]
      have hp3 : (e.1 == ns && e.2.1 == tok) = false := by
        simpa using hp
      rw [hp3]
      exact ih

/-- Claim C1: for every entity namespace and target id, confirming with
an unknown token or one past its expiry fails with CONFIRM_EXPIRED;
confirming with a token issued for a different target id fails with
CONFIRM_MISMATCH; and after a successful confirm the entry is consumed,
so replaying the same token fails with CONFIRM_EXPIRED and leaves the
state produced by the first confirm untouched: the stored change is
never applied a second time. -/
theorem C1_confirm_protocol {σ : Type} (c : ConfirmCache σ)
    (ns tid tok : String) (now now2 : Nat) (ex : σ → String → Bool)
    (st : σ) :
    (cacheLookup c ns tok = none →
      confirm c ns tid tok now ex st = (.err "CONFIRM_EXPIRED", c, st)) ∧
    (∀ pc, cacheLookup c ns tok = some pc → pc.expiry < now →
      confirm c ns tid tok now ex st = (.err "CONFIRM_EXPIRED", c, st)) ∧
    (∀ pc, cacheLookup c ns tok = some pc → now ≤ pc.expiry →
      pc.targetId ≠ tid →
      confirm c ns tid tok now ex st = (.err "CONFIRM_MISMATCH", c, st)) ∧
    (∀ pc, cacheLookup c ns tok = some pc → now ≤ pc.expiry →
      pc.targetId = tid → ex st tid = true →
      confirm c ns tid tok now ex st =
        (.applied, cacheErase c ns tok, pc.apply st) ∧
      confirm (cacheErase c ns tok) ns tid tok now2 ex (pc.apply st) =
        (.err "CONFIRM_EXPIRED", cacheErase c ns tok, pc.apply st)) := by
  refine ⟨?_, ?_, ?_, ?_⟩
  · intro hnone
    unfold confirm
    rw [hnone]
  · intro pc hsome hexp
    unfold confirm
    rw [hsome]
    simp only [if_pos hexp]
  · intro pc hsome hlive hne
    unfold confirm
    simp only [hsome]
    rw [if_neg (by omega), if_pos hne]
  · intro pc hsome hlive heq hex
    constructor
    · unfold confirm
      simp only [hsome]
      rw [if_neg (by omega), if_neg (by simp [heq]), if_neg (by simp [hex])]
    · unfold confirm
      rw [cacheLookup_erase]

/-- Witness for C1: a propose followed by a successful confirm consumes
the token, and the replay fails with CONFIRM_EXPIRED without applying
the payload again. -/
theorem C1_confirm_protocol_witness :
    confirm (propose ([] : ConfirmCache Nat) "books" "gM001" Nat.succ
        "tok1" 0) "books" "gM001" "tok1" 1000 (fun _ _ => true) 5 =
      (.applied, ([] : ConfirmCache Nat), 6) ∧
    confirm ([] : ConfirmCache Nat) "books" "gM001" "tok1" 2000
        (fun _ _ => true) 6 =
      (.err "CONFIRM_EXPIRED", ([] : ConfirmCache Nat), 6) := by
  have h := (C1_confirm_protocol
    (propose ([] : ConfirmCache Nat) "books" "gM001" Nat.succ "tok1" 0)
    "books" "gM001" "tok1" 1000 2000 (fun _ _ => true) 5).2.2.2
    ⟨"gM001", Nat.succ, 0 + CONFIRM_TTL_MS⟩ rfl (by decide) rfl rfl
  exact h

/-- The planner sheet as the handler observes it: display values indexed
by column letter and 1-based row number.  Writing a string cell makes
its display value that string. -/
structure PSheet where
  cell : String → Nat → String

def PSheet.write (sh : PSheet) (col : String) (row : Nat) (v : String) :
    PSheet :=
  ⟨fun c r => if c = col ∧ r = row then v else sh.cell c r⟩

/-- One week block of lib/columns.ts WEEK_COLUMNS: the time, unit-load,
guideline and plan column letters. -/
structure WeekCols where
  time : String
  unit : String
  guide : String
  plan : String
deriving DecidableEq

def WEEK_COLUMNS : List WeekCols :=
  [⟨"E", "F", "G", "H"⟩, ⟨"M", "N", "O", "P"⟩, ⟨"U", "V", "W", "X"⟩,
    ⟨"AC", "AD", "AE", "AF"⟩, ⟨"AK", "AL", "AM", "AN"⟩]

/-- WEEK_COLS[week_index - 1] of planner.ts, for week_index in 1..5. -/
def weekCol (wk : Int) : WeekCols :=
  WEEK_COLUMNS.getD (wk - 1).toNat ⟨"E", "F", "G", "H"⟩

def countLeadingDigits (cs : List Char) : Nat :=
  (cs.takeWhile isAsciiDigit).length

/-- parseBookCode of planner.ts: match ^(\d{3,4})(.+)$ against the
trimmed display value.  The quantifier is greedy, so four digits are
taken when at least one character remains after them, otherwise three;
no match leaves the whole trimmed string as the book id with no month
code. -/
def parseBookCode (raw : String) : Option Nat × String :=
  let s := jsTrim raw
  if s = "" then (none, "")
  else
    let cs := s.data
    let d := countLeadingDigits cs
    if 4 ≤ d ∧ 5 ≤ cs.length then
      (some (digitsVal (cs.take 4)), ⟨cs.drop 4⟩)
    else if 3 ≤ d ∧ 4 ≤ cs.length then
      (some (digitsVal (cs.take 3)), ⟨cs.drop 3⟩)
    else (none, s)

/-- The rows read by readABCD: A4:D30, i.e. rows 4..30. -/
def rowRange : List Nat := (List.range 27).map (4 + ·)

/-- The single-mode row scan of plannerPlanSet: walk rows 4..30, stop at
the first row whose A display value is blank, and return the first row
whose parsed book id equals the requested one. -/
def findRowFrom (sh : PSheet) (bid : String) : List Nat → Option Nat
  | [] => none
  | r :: rest =>
    let a := sh.cell "A" r
    if jsTrim a = "" then none
    else if (parseBookCode a).2 = bid then some r
    else findRowFrom sh bid rest

def findRowByBook (sh : PSheet) (bid : String) : Option Nat :=
  findRowFrom sh bid rowRange

/-- The batch-mode book map of plannerPlanSet: pairs (book id, row) in
row order, stopping at the first blank A cell. -/
def bookRowScan (sh : PSheet) : List Nat → List (String × Nat)
  | [] => []
  | r :: rest =>
    let a := jsTrim (sh.cell "A" r)
    if a = "" then []
    else ((parseBookCode (sh.cell "A" r)).2, r) :: bookRowScan sh rest

/-- bookRowMap lookup: a JavaScript object keyed by book id, so for a
duplicated id the later row wins; 0 when absent. -/
def bookRowFor (sh : PSheet) (bid : String) : Nat :=
  ((((bookRowScan sh rowRange).reverse.find? (fun e => e.1 == bid)).map
    (fun e => e.2)).getD 0)

/-- 文字数上限 of planner.ts. -/
def PLAN_TEXT_MAX : Nat := 52

/-- One entry of a batch plan_set request.  overwrite is none when the
item leaves it unset and the request default applies; row 0 and book_id
empty encode absent fields (JavaScript falsy). -/
structure PlanItem where
  week_index : Int
  plan_text : String
  overwrite : Option Bool
  row : Nat
  book_id : String

/-- A plan_set request: single mode when items is none. -/
structure PlanSetReq where
  week_index : Int
  plan_text : String
  overwrite : Bool
  row : Nat
  book_id : String
  items : Option (List PlanItem)

inductive ItemResult where
  | okItem (col : String) (row : Nat) (text : String)
  | errItem (code : String)
deriving DecidableEq

inductive PlanSetResult where
  | failure (code : String)
  | updatedSingle (col : String) (row : Nat)
  | updatedBatch (results : List ItemResult)
deriving DecidableEq

/-- Single-mode row resolution of plannerPlanSet: an explicit row wins;
otherwise the A-column scan by book id; otherwise none. -/
def resolveRow (sh : PSheet) (req : PlanSetReq) : Option Nat :=
  if req.row ≠ 0 then some req.row
  else if req.book_id ≠ "" then findRowByBook sh req.book_id
  else none

/-- Batch-mode row resolution: an explicit row wins, otherwise the book
map, otherwise 0 (unresolved). -/
def resolveItemRow (sh : PSheet) (it : PlanItem) : Nat :=
  if it.row ≠ 0 then it.row
  else if it.book_id ≠ "" then bookRowFor sh it.book_id
  else 0

/-- One iteration of the batch loop of plannerPlanSet: week check, then
length check, then row resolution, then the A and time preconditions,
then the overwrite guard; a passing item records the pending write. -/
def processItem (sh : PSheet) (reqOw : Bool) (it : PlanItem) : ItemResult :=
  if it.week_index < 1 ∨ 5 < it.week_index then .errItem "BAD_WEEK"
  else if PLAN_TEXT_MAX < utf16Len it.plan_text then .errItem "TOO_LONG"
  else if resolveItemRow sh it = 0 then .errItem "ROW_NOT_FOUND"
  else if jsTrim (sh.cell "A" (resolveItemRow sh it)) = "" then
    .errItem "PRECONDITION_A_EMPTY"
  else if jsTrim
      (sh.cell (weekCol it.week_index).time (resolveItemRow sh it)) = "" then
    .errItem "PRECONDITION_TIME_EMPTY"
  else if it.overwrite.getD reqOw = false ∧
      jsTrim (sh.cell (weekCol it.week_index).plan (resolveItemRow sh it)) ≠
        "" then
    .errItem "ALREADY_EXISTS"
  else
    .okItem (weekCol it.week_index).plan (resolveItemRow sh it) it.plan_text

/-- The deferred writes of the batch mode: the source groups pending
writes per column, sorts the rows and writes contiguous blocks with
setValues; the resulting sheet state is the one obtained by applying the
recorded writes in item order (the sort is stable, so for a twice-written
cell the later item still wins). -/
def applyWrites (sh : PSheet) : List ItemResult → PSheet
  | [] => sh
  | .okItem col row txt :: rest => applyWrites (sh.write col row txt) rest
  | .errItem _ :: rest => applyWrites sh rest

/-- plannerPlanSet of planner.ts, after the sheet has been opened: the
single mode validates, resolves the row, checks the preconditions and
writes one cell; the batch mode processes every item and applies the
collected writes, always answering ok with the per-item results. -/
def plannerPlanSet (sh : PSheet) (req : PlanSetReq) :
    PlanSetResult × PSheet :=
  match req.items with
  | some items =>
    let results := items.map (processItem sh req.overwrite)
    (.updatedBatch results, applyWrites sh results)
  | none =>
    if req.week_index < 1 ∨ 5 < req.week_index then
      (.failure "BAD_REQUEST", sh)
    else if PLAN_TEXT_MAX < utf16Len req.plan_text then
      (.failure "TOO_LONG", sh)
    else
      match resolveRow sh req with
      | none => (.failure "ROW_NOT_FOUND", sh)
      | some r =>
        if jsTrim (sh.cell "A" r) = "" then
          (.failure "PRECONDITION_A_EMPTY", sh)
        else if jsTrim (sh.cell (weekCol req.week_index).time r) = "" then
          (.failure "PRECONDITION_TIME_EMPTY", sh)
        else if req.overwrite = false ∧
            jsTrim (sh.cell (weekCol req.week_index).plan r) ≠ "" then
          (.failure "ALREADY_EXISTS", sh)
        else (.updatedSingle (weekCol req.week_index).plan r,
          sh.write (weekCol req.week_index).plan r req.plan_text)

theorem PSheet.cell_write (sh : PSheet) (col : String) (row : Nat)
    (v : String) (c : String) (r : Nat) :
    (sh.write col row v).cell c r =
      if c = col ∧ r = row then v else sh.cell c r := rfl

/-- Cells not targeted by any successful item are untouched by the batch
writes. -/
theorem applyWrites_cell_untouched (results : List ItemResult)
    (sh : PSheet) (col : String) (row : Nat)
    (h : ∀ c r t, ItemResult.okItem c r t ∈ results → ¬(c = col ∧ r = row)) :
    (applyWrites sh results).cell col row = sh.cell col row := by
  induction results generalizing sh with
  | nil => rfl
  | cons x rest ih =>
    cases x with
    | okItem c r t =>
      rw [applyWrites]
      rw [ih _ (fun c2 r2 t2 hm => h c2 r2 t2 (List.mem_cons_of_mem _ hm))]
      rw [PSheet.cell_write]
      rw [if_neg (fun hcr =>
        h c r t (List.mem_cons_self _ _) ⟨hcr.1.symm, hcr.2.symm⟩)]
    | errItem code =>
      rw [applyWrites]
      exact ih _ (fun c2 r2 t2 hm => h c2 r2 t2 (List.mem_cons_of_mem _ hm))

/-- A batch in which no item passed writes nothing at all. -/
theorem applyWrites_no_ok (results : List ItemResult) (sh : PSheet)
    (h : ∀ c r t, ItemResult.okItem c r t ∉ results) :
    applyWrites sh results = sh := by
  induction results generalizing sh with
  | nil => rfl
  | cons x rest ih =>
    cases x with
    | okItem c r t => exact absurd (List.mem_cons_self _ _) (h c r t)
    | errItem code =>
      rw [applyWrites]
      exact ih sh (fun c2 r2 t2 hm => h c2 r2 t2 (List.mem_cons_of_mem _ hm))

/-- Claim C3: a plan_set with a week index outside the closed range
[1,5] fails with BAD_REQUEST in single mode, the offending batch item
fails with the per-item BAD_WEEK, and no cell is written for that
request or item: a single call leaves the sheet untouched, and a batch
whose items all carry bad weeks leaves the sheet untouched. -/
theorem C3_bad_week (sh : PSheet) (req : PlanSetReq) (reqOw : Bool)
    (it : PlanItem) (items : List PlanItem) :
    (req.items = none → (req.week_index < 1 ∨ 5 < req.week_index) →
      plannerPlanSet sh req = (.failure "BAD_REQUEST", sh)) ∧
    ((it.week_index < 1 ∨ 5 < it.week_index) →
      processItem sh reqOw it = .errItem "BAD_WEEK") ∧
    (req.items = some items →
      (∀ x ∈ items, x.week_index < 1 ∨ 5 < x.week_index) →
      plannerPlanSet sh req =
        (.updatedBatch (items.map (fun _ => .errItem "BAD_WEEK")), sh)) := by
  have hitem : ∀ y : PlanItem, (y.week_index < 1 ∨ 5 < y.week_index) →
      processItem sh reqOw y = .errItem "BAD_WEEK" := by
    intro y hy
    unfold processItem
    rw [if_pos hy]
  refine ⟨?_, hitem it, ?_⟩
  · intro hnone hbad
    simp only [plannerPlanSet, hnone]
    rw [if_pos hbad]
  · intro hsome hall
    simp only [plannerPlanSet, hsome]
    have hmap : items.map (processItem sh req.overwrite) =
        items.map (fun _ => ItemResult.errItem "BAD_WEEK") := by
      apply List.map_congr_left
      intro x hx
      unfold processItem
      rw [if_pos (hall x hx)]
    rw [hmap]
    rw [applyWrites_no_ok]
    intro c r t hm
    simp only [List.mem_map] at hm
    obtain ⟨a, -, ha⟩ := hm
    cases ha

/-- Witness for C3: week 6 in single mode fails BAD_REQUEST on a
concrete sheet, leaving it unchanged. -/
theorem C3_bad_week_witness :
    plannerPlanSet ⟨fun _ _ => "x"⟩ ⟨6, "t", false, 4, "", none⟩ =
      (.failure "BAD_REQUEST", ⟨fun _ _ => "x"⟩) :=
  (C3_bad_week ⟨fun _ _ => "x"⟩ ⟨6, "t", false, 4, "", none⟩ false
    ⟨6, "t", none, 4, ""⟩ []).1 rfl (by decide)

/-- Claim C2: a plan_text of UTF-16 length at most 52 passes the length
check (the call never fails TOO_LONG), while a longer plan_text fails
with TOO_LONG, in single mode as a BAD_REQUEST-shaped failure object and
in batch mode as the per-item error, and no cell of the sheet is written
for it: a long single call returns the sheet untouched, and a batch of
long items writes nothing. -/
theorem C2_plan_text_length (sh : PSheet) (req : PlanSetReq)
    (reqOw : Bool) (it : PlanItem) (items : List PlanItem) :
    (req.items = none → 1 ≤ req.week_index → req.week_index ≤ 5 →
      PLAN_TEXT_MAX < utf16Len req.plan_text →
      plannerPlanSet sh req = (.failure "TOO_LONG", sh)) ∧
    (req.items = none → utf16Len req.plan_text ≤ PLAN_TEXT_MAX →
      (plannerPlanSet sh req).1 ≠ .failure "TOO_LONG") ∧
    (1 ≤ it.week_index → it.week_index ≤ 5 →
      PLAN_TEXT_MAX < utf16Len it.plan_text →
      processItem sh reqOw it = .errItem "TOO_LONG") ∧
    (utf16Len it.plan_text ≤ PLAN_TEXT_MAX →
      processItem sh reqOw it ≠ .errItem "TOO_LONG") ∧
    (req.items = some items →
      (∀ x ∈ items, 1 ≤ x.week_index ∧ x.week_index ≤ 5 ∧
        PLAN_TEXT_MAX < utf16Len x.plan_text) →
      plannerPlanSet sh req =
        (.updatedBatch (items.map (fun _ => .errItem "TOO_LONG")), sh)) := by
  have hitem : ∀ y : PlanItem, 1 ≤ y.week_index → y.week_index ≤ 5 →
      PLAN_TEXT_MAX < utf16Len y.plan_text →
      processItem sh reqOw y = .errItem "TOO_LONG" := by
    intro y h1 h5 hlong
    unfold processItem
    rw [if_neg (by omega), if_pos hlong]
  refine ⟨?_, ?_, hitem it, ?_, ?_⟩
  · intro hnone h1 h5 hlong
    simp only [plannerPlanSet, hnone]
    rw [if_neg (by omega), if_pos hlong]
  · intro hnone hshort
    simp only [plannerPlanSet, hnone]
    split
    · simp
    · rw [if_neg (by omega)]
      split
      · simp
      · split
        · simp
        · split
          · simp
          · split
            · simp
            · simp
  · intro hshort
    unfold processItem
    split
    · simp
    · rw [if_neg (by omega)]
      split
      · simp
      · split
        · simp
        · split
          · simp
          · split
            · simp
            · simp
  · intro hsome hall
    have hmap : items.map (processItem sh req.overwrite) =
        items.map (fun _ => ItemResult.errItem "TOO_LONG") := by
      apply List.map_congr_left
      intro x hx
      obtain ⟨h1, h5, hlong⟩ := hall x hx
      unfold processItem
      rw [if_neg (by omega), if_pos hlong]
    simp only [plannerPlanSet, hsome]
    rw [hmap]
    rw [applyWrites_no_ok]
    intro c r t hm
    simp only [List.mem_map] at hm
    obtain ⟨a, -, ha⟩ := hm
    cases ha

/-- Witness for C2: a 53-character plan_text fails TOO_LONG on a
concrete sheet and leaves it unchanged. -/
theorem C2_plan_text_length_witness :
    plannerPlanSet ⟨fun _ _ => "x"⟩
        ⟨1, String.mk (List.replicate 53 'a'), false, 4, "", none⟩ =
      (.failure "TOO_LONG", ⟨fun _ _ => "x"⟩) :=
  (C2_plan_text_length ⟨fun _ _ => "x"⟩
    ⟨1, String.mk (List.replicate 53 'a'), false, 4, "", none⟩ false
    ⟨1, "t", none, 4, ""⟩ []).1 rfl (by decide) (by decide) (by decide)

/-- Claim C4: for a plan_set write to a resolved row, in single and in
batch mode, a blank A cell fails PRECONDITION_A_EMPTY; otherwise a blank
time cell of the target week fails PRECONDITION_TIME_EMPTY; otherwise a
non-blank plan cell without overwrite fails ALREADY_EXISTS and the sheet
is unchanged; with overwrite the write succeeds, the plan cell holds the
new text and every other cell is unchanged. -/
theorem C4_write_preconditions (sh : PSheet) (req : PlanSetReq) (r : Nat)
    (reqOw : Bool) (it : PlanItem)
    (hnone : req.items = none) (h1 : 1 ≤ req.week_index)
    (h5 : req.week_index ≤ 5)
    (hlen : utf16Len req.plan_text ≤ PLAN_TEXT_MAX)
    (hres : resolveRow sh req = some r)
    (hb1 : 1 ≤ it.week_index) (hb5 : it.week_index ≤ 5)
    (hblen : utf16Len it.plan_text ≤ PLAN_TEXT_MAX)
    (hbrow : resolveItemRow sh it ≠ 0) :
    (jsTrim (sh.cell "A" r) = "" →
      plannerPlanSet sh req = (.failure "PRECONDITION_A_EMPTY", sh)) ∧
    (jsTrim (sh.cell "A" r) ≠ "" →
      jsTrim (sh.cell (weekCol req.week_index).time r) = "" →
      plannerPlanSet sh req = (.failure "PRECONDITION_TIME_EMPTY", sh)) ∧
    (jsTrim (sh.cell "A" r) ≠ "" →
      jsTrim (sh.cell (weekCol req.week_index).time r) ≠ "" →
      req.overwrite = false →
      jsTrim (sh.cell (weekCol req.week_index).plan r) ≠ "" →
      plannerPlanSet sh req = (.failure "ALREADY_EXISTS", sh)) ∧
    (jsTrim (sh.cell "A" r) ≠ "" →
      jsTrim (sh.cell (weekCol req.week_index).time r) ≠ "" →
      req.overwrite = true →
      plannerPlanSet sh req =
        (.updatedSingle (weekCol req.week_index).plan r,
          sh.write (weekCol req.week_index).plan r req.plan_text) ∧
      (plannerPlanSet sh req).2.cell (weekCol req.week_index).plan r =
        req.plan_text ∧
      (∀ c2 r2, ¬(c2 = (weekCol req.week_index).plan ∧ r2 = r) →
        (plannerPlanSet sh req).2.cell c2 r2 = sh.cell c2 r2)) ∧
    (jsTrim (sh.cell "A" (resolveItemRow sh it)) = "" →
      processItem sh reqOw it = .errItem "PRECONDITION_A_EMPTY") ∧
    (jsTrim (sh.cell "A" (resolveItemRow sh it)) ≠ "" →
      jsTrim (sh.cell (weekCol it.week_index).time (resolveItemRow sh it)) =
        "" →
      processItem sh reqOw it = .errItem "PRECONDITION_TIME_EMPTY") ∧
    (jsTrim (sh.cell "A" (resolveItemRow sh it)) ≠ "" →
      jsTrim (sh.cell (weekCol it.week_index).time (resolveItemRow sh it)) ≠
        "" →
      it.overwrite.getD reqOw = false →
      jsTrim (sh.cell (weekCol it.week_index).plan (resolveItemRow sh it)) ≠
        "" →
      processItem sh reqOw it = .errItem "ALREADY_EXISTS") ∧
    (jsTrim (sh.cell "A" (resolveItemRow sh it)) ≠ "" →
      jsTrim (sh.cell (weekCol it.week_index).time (resolveItemRow sh it)) ≠
        "" →
      it.overwrite.getD reqOw = true →
      processItem sh reqOw it =
        .okItem (weekCol it.week_index).plan (resolveItemRow sh it)
          it.plan_text) := by
  refine ⟨?_, ?_, ?_, ?_, ?_, ?_, ?_, ?_⟩
  · intro hA
    simp only [plannerPlanSet, hnone, hres]
    rw [if_neg (by omega), if_neg (by omega), if_pos hA]
  · intro hAne hT
    simp only [plannerPlanSet, hnone, hres]
    rw [if_neg (by omega), if_neg (by omega), if_neg hAne, if_pos hT]
  · intro hAne hTne how hPne
    simp only [plannerPlanSet, hnone, hres]
    rw [if_neg (by omega), if_neg (by omega), if_neg hAne, if_neg hTne,
      if_pos ⟨how, hPne⟩]
  · intro hAne hTne how
    have heq : plannerPlanSet sh req =
        (.updatedSingle (weekCol req.week_index).plan r,
          sh.write (weekCol req.week_index).plan r req.plan_text) := by
      simp only [plannerPlanSet, hnone, hres]
      rw [if_neg (by omega), if_neg (by omega), if_neg hAne, if_neg hTne,
        if_neg (by simp [how])]
    refine ⟨heq, ?_, ?_⟩
    · rw [heq, PSheet.cell_write, if_pos ⟨rfl, rfl⟩]
    · intro c2 r2 hne
      rw [heq, PSheet.cell_write, if_neg hne]
  · intro hA
    unfold processItem
    rw [if_neg (by omega), if_neg (by omega), if_neg hbrow, if_pos hA]
  · intro hAne hT
    unfold processItem
    rw [if_neg (by omega), if_neg (by omega), if_neg hbrow, if_neg hAne,
      if_pos hT]
  · intro hAne hTne how hPne
    unfold processItem
    rw [if_neg (by omega), if_neg (by omega), if_neg hbrow, if_neg hAne,
      if_neg hTne, if_pos ⟨how, hPne⟩]
  · intro hAne hTne how
    unfold processItem
    rw [if_neg (by omega), if_neg (by omega), if_neg hbrow, if_neg hAne,
      if_neg hTne, if_neg (by simp [how])]

/-- A concrete planner sheet used by the witnesses: row 4 has a book
code in A, a weekly time in E and an existing plan in H. -/
def sampleSheet : PSheet :=
  ⟨fun c r =>
    if c = "A" ∧ r = 4 then "261gM001"
    else if c = "E" ∧ r = 4 then "300"
    else if c = "H" ∧ r = 4 then "1-20"
    else ""⟩

/-- Witness for C4: an overwrite write on the concrete sheet succeeds,
replaces the plan cell and touches nothing else. -/
theorem C4_write_preconditions_witness :
    plannerPlanSet sampleSheet ⟨1, "21-40", true, 4, "", none⟩ =
      (.updatedSingle (weekCol 1).plan 4,
        sampleSheet.write (weekCol 1).plan 4 "21-40") ∧
    (plannerPlanSet sampleSheet ⟨1, "21-40", true, 4, "", none⟩).2.cell
      (weekCol 1).plan 4 = "21-40" ∧
    (∀ c2 r2, ¬(c2 = (weekCol 1).plan ∧ r2 = 4) →
      (plannerPlanSet sampleSheet ⟨1, "21-40", true, 4, "", none⟩).2.cell
        c2 r2 = sampleSheet.cell c2 r2) :=
  (C4_write_preconditions sampleSheet ⟨1, "21-40", true, 4, "", none⟩ 4 false
    ⟨1, "21-40", some true, 4, ""⟩ rfl (by decide) (by decide) (by decide)
    (by decide) (by decide) (by decide) (by decide) (by decide)).2.2.2.1
    (by decide) (by decide) rfl

/-- Claim C5: a batch plan_set call always answers with the ok-shaped
batch result (top-level ok true), one entry per item in order, each
entry computed from its own item against the initial sheet alone, so a
failing item never aborts its siblings; cells not written by a
successful item keep their value. -/
theorem C5_batch_isolation (sh : PSheet) (req : PlanSetReq)
    (items : List PlanItem) (hitems : req.items = some items) :
    ∃ results : List ItemResult,
      (plannerPlanSet sh req).1 = .updatedBatch results ∧
      results.length = items.length ∧
      (∀ i : Nat, results[i]? =
        items[i]?.map (processItem sh req.overwrite)) ∧
      (∀ col row,
        (∀ c r t, ItemResult.okItem c r t ∈ results →
          ¬(c = col ∧ r = row)) →
        (plannerPlanSet sh req).2.cell col row = sh.cell col row) := by
  refine ⟨items.map (processItem sh req.overwrite), ?_, ?_, ?_, ?_⟩
  · simp only [plannerPlanSet, hitems]
  · simp
  · intro i
    exact List.getElem?_map _ _ _
  · intro col row h
    simp only [plannerPlanSet, hitems]
    exact applyWrites_cell_untouched _ sh col row h

/-- Witness for C5: a batch holding a bad-week item, a too-long item and
a passing overwrite item on the concrete sheet. -/
theorem C5_batch_isolation_witness :
    ∃ results : List ItemResult,
      (plannerPlanSet sampleSheet
        ⟨0, "", false, 0, "",
          some [⟨6, "t", none, 4, ""⟩,
            ⟨1, String.mk (List.replicate 53 'a'), none, 4, ""⟩,
            ⟨1, "21-40", some true, 4, ""⟩]⟩).1 = .updatedBatch results ∧
      results.length =
        ([⟨6, "t", none, 4, ""⟩,
          ⟨1, String.mk (List.replicate 53 'a'), none, 4, ""⟩,
          ⟨1, "21-40", some true, 4, ""⟩] : List PlanItem).length ∧
      (∀ i : Nat, results[i]? =
        ([⟨6, "t", none, 4, ""⟩,
          ⟨1, String.mk (List.replicate 53 'a'), none, 4, ""⟩,
          ⟨1, "21-40", some true, 4, ""⟩] : List PlanItem)[i]?.map
            (processItem sampleSheet false)) ∧
      (∀ col row,
        (∀ c r t, ItemResult.okItem c r t ∈ results →
          ¬(c = col ∧ r = row)) →
        (plannerPlanSet sampleSheet
          ⟨0, "", false, 0, "",
            some [⟨6, "t", none, 4, ""⟩,
              ⟨1, String.mk (List.replicate 53 'a'), none, 4, ""⟩,
              ⟨1, "21-40", some true, 4, ""⟩]⟩).2.cell col row =
          sampleSheet.cell col row) :=
  C5_batch_isolation sampleSheet
    ⟨0, "", false, 0, "",
      some [⟨6, "t", none, 4, ""⟩,
        ⟨1, String.mk (List.replicate 53 'a'), none, 4, ""⟩,
        ⟨1, "21-40", some true, 4, ""⟩]⟩
    [⟨6, "t", none, 4, ""⟩,
      ⟨1, String.mk (List.replicate 53 'a'), none, 4, ""⟩,
      ⟨1, "21-40", some true, 4, ""⟩] rfl

/-- Split a character list into maximal non-white-space runs. -/
def splitWsAux (cur : List Char) : List Char → List String
  | [] => if cur = [] then [] else [⟨cur.reverse⟩]
  | c :: rest =>
    if isJsWs c then
      if cur = [] then splitWsAux [] rest
      else ⟨cur.reverse⟩ :: splitWsAux [] rest
    else splitWsAux (c :: cur) rest

def splitWs (s : String) : List String := splitWsAux [] s.data

/-- Substring containment over character lists. -/
def listInfix (needle : List Char) : List Char → Bool
  | [] => needle.isEmpty
  | c :: rest => needle.isPrefixOf (c :: rest) || listInfix needle rest

def isSubstr (needle hay : String) : Bool :=
  listInfix needle.data hay.data

/-- One record of the searchable corpus: primary id, title, subject and
the alias list, per §4.3. -/
structure BookRec where
  id : String
  title : String
  subject : String
  aliases : List String
deriving DecidableEq

/-- Modelled from the spec: the search engine of handlers/books.ts is
absent from src/ (only its test suite is present).  Tokenization per
§4.3 step 1: split the field on white-space and normalize each token
(the CJK substring granularity of the source is irrelevant to the
ordering claim, which holds for token overlaps of any magnitude). -/
def tokenize (s : String) : List String :=
  ((splitWs s).map normalizeStr).filter (fun t => t ≠ "")

def tokensOfRec (r : BookRec) : List String :=
  tokenize r.id ++ tokenize r.title ++ r.aliases.flatMap tokenize ++
    tokenize r.subject

/-- §4.3 step 2: document frequency of a token across the corpus. -/
def docFreq (corpus : List BookRec) (t : String) : Nat :=
  (corpus.filter (fun r => (tokensOfRec r).contains t)).length

/-- IDF-style weight: tokens appearing in many records weigh less. -/
def idfWeight (corpus : List BookRec) (t : String) : Nat :=
  (corpus.length + 1) / (docFreq corpus t + 1)

/-- IDF-weighted overlap of the query tokens with a record. -/
def tokenOverlap (corpus : List BookRec) (query : String) (r : BookRec) :
    Nat :=
  ((tokenize query).filter (fun t => (tokensOfRec r).contains t)).foldl
    (fun acc t => acc + idfWeight corpus t) 0

inductive MatchReason where
  | exactHit
  | partialHit
  | aliasHit
  | tokenHit
deriving DecidableEq

/-- Modelled from the spec §4.3 step 3: exact full-string match on id or
title; otherwise substring containment of the normalized query in a
normalized field; otherwise an alias match; otherwise a positive
IDF-weighted token overlap; otherwise no candidate. -/
def classify (corpus : List BookRec) (query : String) (r : BookRec) :
    Option MatchReason :=
  let nq := normalizeStr query
  if nq = normalizeStr r.id ∨ nq = normalizeStr r.title then some .exactHit
  else if nq ≠ "" ∧
      (isSubstr nq (normalizeStr r.id) ∨ isSubstr nq (normalizeStr r.title))
    then some .partialHit
  else if r.aliases.any (fun a => normalizeStr a = nq ∨
      (nq ≠ "" ∧ isSubstr nq (normalizeStr a))) then some .aliasHit
  else if 0 < tokenOverlap corpus query r then some .tokenHit
  else none

/-- Base score of the token tier: strictly below 500 plus the bonus
margin for any overlap magnitude. -/
def tokenScore (w : Nat) : Nat := 500 - 500 / (w + 1)

/-- §4.3 step 4: the small subject bonus. -/
def SUBJECT_BONUS : Nat := 50

def subjectMatch (query : String) (r : BookRec) : Bool :=
  normalizeStr r.subject ≠ "" &&
    isSubstr (normalizeStr r.subject) (normalizeStr query)

/-- Modelled from the spec §4.3: the score of a matched record, by tier,
with the subject bonus on top; tiers are separated so that exact (1000)
is above partial (800), above alias (600), above any token score. -/
def scoreRec (corpus : List BookRec) (query : String) (r : BookRec) :
    Option (Nat × MatchReason) :=
  (classify corpus query r).map (fun k =>
    ((match k with
      | .exactHit => 1000
      | .partialHit => 800
      | .aliasHit => 600
      | .tokenHit => tokenScore (tokenOverlap corpus query r)) +
      (if subjectMatch query r then SUBJECT_BONUS else 0), k))

def kindRank : MatchReason → Nat
  | .exactHit => 0
  | .partialHit => 1
  | .aliasHit => 2
  | .tokenHit => 3

theorem tokenScore_le (w : Nat) : tokenScore w ≤ 500 := Nat.sub_le _ _

/-- Claim C6: scores are strictly ordered by match kind: for every
corpus and query, an exact match scores strictly above any partial
match, which scores strictly above any alias match, which scores
strictly above any token-overlap match of any magnitude, with or without
the subject bonus. -/
theorem C6_score_strict_order (corpus : List BookRec) (query : String)
    (r1 r2 : BookRec) (s1 s2 : Nat) (k1 k2 : MatchReason)
    (h1 : scoreRec corpus query r1 = some (s1, k1))
    (h2 : scoreRec corpus query r2 = some (s2, k2))
    (hk : kindRank k1 < kindRank k2) : s2 < s1 := by
  simp only [scoreRec, Option.map_eq_some'] at h1 h2
  obtain ⟨a1, hc1, hf1⟩ := h1
  obtain ⟨a2, hc2, hf2⟩ := h2
  injection hf1 with hs1 hk1eq
  injection hf2 with hs2 hk2eq
  subst hk1eq hk2eq hs1 hs2
  have ht1 := tokenScore_le (tokenOverlap corpus query r1)
  have ht2 := tokenScore_le (tokenOverlap corpus query r2)
  have hb1 : (if subjectMatch query r1 then SUBJECT_BONUS else 0) ≤ 50 := by
    split <;> simp [SUBJECT_BONUS]
  have hb2 : (if subjectMatch query r2 then SUBJECT_BONUS else 0) ≤ 50 := by
    split <;> simp [SUBJECT_BONUS]
  cases a1 <;> cases a2 <;> simp [kindRank] at hk ⊢ <;> omega

/-- Witness for C6: in a two-record corpus the exact title match scores
1000 and the partial containment match scores 800, and the theorem
orders them. -/
theorem C6_score_strict_order_witness :
    (800 : Nat) < 1000 ∧
    scoreRec [⟨"gm001", "bluechart", "math", []⟩,
        ⟨"ge001", "bluechartplus", "eng", []⟩] "bluechart"
      ⟨"gm001", "bluechart", "math", []⟩ = some (1000, .exactHit) ∧
    scoreRec [⟨"gm001", "bluechart", "math", []⟩,
        ⟨"ge001", "bluechartplus", "eng", []⟩] "bluechart"
      ⟨"ge001", "bluechartplus", "eng", []⟩ = some (800, .partialHit) :=
  ⟨C6_score_strict_order
    [⟨"gm001", "bluechart", "math", []⟩,
      ⟨"ge001", "bluechartplus", "eng", []⟩] "bluechart"
    ⟨"gm001", "bluechart", "math", []⟩ ⟨"ge001", "bluechartplus", "eng", []⟩
    1000 800 .exactHit .partialHit (by decide) (by decide) (by decide),
    by decide, by decide⟩

/-- Column name candidates of lib/student_resolver.ts. -/
def STUDENT_ID_COLUMNS : List String := ["生徒ID", "ID", "id"]

def PLANNER_ID_COLUMNS : List String :=
  ["スピードプランナーID", "PlannerSheetId", "planner_sheet_id",
    "プランナーID"]

def PLANNER_LINK_COLUMNS : List String :=
  ["スプレッドシート", "スピードプランナー", "PlannerLink",
    "プランナーリンク", "スプレッドシートURL"]

def PLANNER_LINK_KEYWORDS : List String :=
  ["スプレッドシート", "planner", "プランナー"]

/-- The character class [-\w] of the URL id pattern. -/
def isWordChar (c : Char) : Bool :=
  c = '-' || c = '_' || (48 ≤ c.toNat && c.toNat ≤ 57) ||
  (65 ≤ c.toNat && c.toNat ≤ 90) || (97 ≤ c.toNat && c.toNat ≤ 122)

theorem length_dropWhile_le (p : Char → Bool) (l : List Char) :
    (l.dropWhile p).length ≤ l.length := by
  induction l with
  | nil => simp
  | cons a t ih =>
    rw [List.dropWhile_cons]
    split
    · simpa using Nat.le_succ_of_le ih
    · simp

/-- First maximal run of at least 25 word characters, as the regex
[-\w]\x7b25,\x7d matches leftmost and greedily. -/
def firstLongRun : List Char → Option String
  | [] => none
  | c :: rest =>
    if isWordChar c then
      if 25 ≤ ((c :: rest).takeWhile isWordChar).length then
        some ⟨(c :: rest).takeWhile isWordChar⟩
      else firstLongRun (rest.dropWhile isWordChar)
    else firstLongRun rest
termination_by cs => cs.length
decreasing_by
  · simp only [List.length_cons]
    exact Nat.lt_succ_of_le (length_dropWhile_le _ _)
  · simp

/-- extractSpreadsheetIdFromUrl of lib/student_resolver.ts. -/
def extractSpreadsheetIdFromUrl (url : String) : Option String :=
  firstLongRun url.data

/-- What the resolver observes of the students master sheet: whether
opening it throws, whether a sheet object exists, the cell values
(string-coerced; a missing cell is modelled as the empty string) and the
rich-text link URL per cell (none when there is no hyperlink or reading
it throws). -/
structure StudentsEnv where
  throws : Bool
  hasSheet : Bool
  values : List (List String)
  richLink : Nat → Nat → Option String

/-- A resolve request: spreadsheet_id and student_id, the empty string
encoding an absent or falsy field. -/
structure ResolveReq where
  spreadsheet_id : String
  student_id : String

def cellAt (values : List (List String)) (r c : Nat) : String :=
  (values.getD r []).getD c ""

def findIdxP (p : String → Bool) : List String → Option Nat
  | [] => none
  | x :: rest => if p x then some 0 else (findIdxP p rest).map (· + 1)

/-- The partial-match fallback for the link column: the first header
whose key contains one of the keywords. -/
def linkIdxFallback (headers : List String) : Int :=
  match findIdxP (fun h => PLANNER_LINK_KEYWORDS.any
      (fun k => isSubstr (headerKey k) (headerKey h))) headers with
  | some i => Int.ofNat i
  | none => -1

def studentsHeaders (env : StudentsEnv) : List String := env.values.headD []

def studentIdxId (env : StudentsEnv) : Int :=
  pickCol (studentsHeaders env) STUDENT_ID_COLUMNS

def studentIdxPlannerId (env : StudentsEnv) : Int :=
  pickCol (studentsHeaders env) PLANNER_ID_COLUMNS

def studentIdxLink (env : StudentsEnv) : Int :=
  if pickCol (studentsHeaders env) PLANNER_LINK_COLUMNS < 0 then
    linkIdxFallback (studentsHeaders env)
  else pickCol (studentsHeaders env) PLANNER_LINK_COLUMNS

/-- extractSpreadsheetIdFromLink: the rich-text link URL when present
and non-empty, else the trimmed plain cell text, fed to the URL
extractor; a throwing rich-text read falls back to the plain text. -/
def extractFromLink (env : StudentsEnv) (r c : Nat) : Option String :=
  extractSpreadsheetIdFromUrl
    (match env.richLink r c with
      | some u => if u ≠ "" then u else jsTrim (cellAt env.values r c)
      | none => jsTrim (cellAt env.values r c))

/-- The id cell of one row, as the loop reads it. -/
def idAt (env : StudentsEnv) (idxId : Int) (r : Nat) : String :=
  if 0 ≤ idxId then jsTrim (cellAt env.values r idxId.toNat) else ""

/-- What a found student row yields: the non-blank planner-ID cell when
that column exists, else the link extraction when that column exists,
else nothing (and the loop returns immediately). -/
def studentRowResult (env : StudentsEnv) (idxPlannerId idxLink : Int)
    (r : Nat) : Option String :=
  if 0 ≤ idxPlannerId ∧
      jsTrim (cellAt env.values r idxPlannerId.toNat) ≠ "" then
    some (jsTrim (cellAt env.values r idxPlannerId.toNat))
  else if 0 ≤ idxLink then extractFromLink env r idxLink.toNat
  else none

/-- The row loop of resolveSpreadsheetIdByStudent: skip rows whose id
cell is blank or differs from the student id; the first matching row
decides the outcome. -/
def loopRows (env : StudentsEnv) (sid : String)
    (idxId idxPlannerId idxLink : Int) : List Nat → Option String
  | [] => none
  | r :: rest =>
    if idAt env idxId r = "" ∨ idAt env idxId r ≠ sid then
      loopRows env sid idxId idxPlannerId idxLink rest
    else studentRowResult env idxPlannerId idxLink r

/-- The data row indices 1 .. values.length - 1. -/
def dataRowIdx (env : StudentsEnv) : List Nat :=
  (List.range (env.values.length - 1)).map (1 + ·)

/-- resolveSpreadsheetIdByStudent of lib/student_resolver.ts: a truthy
spreadsheet_id is returned directly; a blank student_id, a throwing
sheet access, a missing sheet, a header-only table, a student not found,
or a found student without planner id or extractable link all yield
null. -/
def resolveSpreadsheetIdByStudent (env : StudentsEnv) (req : ResolveReq) :
    Option String :=
  if req.spreadsheet_id ≠ "" then some req.spreadsheet_id
  else if jsTrim req.student_id = "" then none
  else if env.throws then none
  else if env.hasSheet = false then none
  else if env.values.length < 2 then none
  else
    loopRows env (jsTrim req.student_id) (studentIdxId env)
      (studentIdxPlannerId env) (studentIdxLink env) (dataRowIdx env)

theorem loopRows_none (env : StudentsEnv) (sid : String)
    (idxId idxP idxL : Int) (rows : List Nat)
    (h : ∀ x ∈ rows, idAt env idxId x = "" ∨ idAt env idxId x ≠ sid) :
    loopRows env sid idxId idxP idxL rows = none := by
  induction rows with
  | nil => rfl
  | cons a t ih =>
    rw [loopRows, if_pos (h a (List.mem_cons_self a t))]
    exact ih (fun x hx => h x (List.mem_cons_of_mem a hx))

theorem loopRows_found (env : StudentsEnv) (sid : String)
    (idxId idxP idxL : Int) (pre post : List Nat) (r : Nat)
    (hpre : ∀ x ∈ pre, idAt env idxId x = "" ∨ idAt env idxId x ≠ sid)
    (hid : idAt env idxId r = sid) (hne : idAt env idxId r ≠ "") :
    loopRows env sid idxId idxP idxL (pre ++ r :: post) =
      studentRowResult env idxP idxL r := by
  induction pre with
  | nil =>
    simp only [List.nil_append]
    rw [loopRows, if_neg (fun hcon => by
      rcases hcon with h | h
      · exact hne h
      · exact h hid)]
  | cons a t ih =>
    simp only [List.cons_append]
    rw [loopRows, if_pos (hpre a (List.mem_cons_self a t))]
    exact ih (fun x hx => hpre x (List.mem_cons_of_mem a hx))

/-- Claim C10: resolveSpreadsheetIdByStudent is total (it always returns
a value or null, never throws, by construction of the model) and: a
truthy spreadsheet_id is returned as-is without consulting the student
master (the result does not depend on the sheet environment); a blank
student_id, a throwing sheet access, a missing sheet, a header-only
table, an unmatched student id, and a matched student row with neither a
non-blank planner-ID cell nor an extractable link all yield null. -/
theorem C10_resolve_by_student (env env2 : StudentsEnv) (req : ResolveReq)
    (r : Nat) (pre post : List Nat) :
    (req.spreadsheet_id ≠ "" →
      resolveSpreadsheetIdByStudent env req = some req.spreadsheet_id ∧
      resolveSpreadsheetIdByStudent env req =
        resolveSpreadsheetIdByStudent env2 req) ∧
    (jsTrim req.student_id = "" → req.spreadsheet_id = "" →
      resolveSpreadsheetIdByStudent env req = none) ∧
    (env.throws = true → req.spreadsheet_id = "" →
      resolveSpreadsheetIdByStudent env req = none) ∧
    (env.hasSheet = false → req.spreadsheet_id = "" →
      resolveSpreadsheetIdByStudent env req = none) ∧
    (env.values.length < 2 → req.spreadsheet_id = "" →
      resolveSpreadsheetIdByStudent env req = none) ∧
    (req.spreadsheet_id = "" →
      (∀ x ∈ dataRowIdx env,
        idAt env (studentIdxId env) x = "" ∨
        idAt env (studentIdxId env) x ≠ jsTrim req.student_id) →
      resolveSpreadsheetIdByStudent env req = none) ∧
    (req.spreadsheet_id = "" →
      dataRowIdx env = pre ++ r :: post →
      (∀ x ∈ pre, idAt env (studentIdxId env) x = "" ∨
        idAt env (studentIdxId env) x ≠ jsTrim req.student_id) →
      idAt env (studentIdxId env) r = jsTrim req.student_id →
      idAt env (studentIdxId env) r ≠ "" →
      (studentIdxPlannerId env < 0 ∨
        jsTrim (cellAt env.values r (studentIdxPlannerId env).toNat) = "") →
      (studentIdxLink env < 0 ∨
        extractFromLink env r (studentIdxLink env).toNat = none) →
      resolveSpreadsheetIdByStudent env req = none) := by
  refine ⟨?_, ?_, ?_, ?_, ?_, ?_, ?_⟩
  · intro hss
    unfold resolveSpreadsheetIdByStudent
    rw [if_pos hss, if_pos hss]
    exact ⟨rfl, rfl⟩
  · intro hsid hss
    unfold resolveSpreadsheetIdByStudent
    rw [if_neg (by simp [hss]), if_pos hsid]
  · intro hthrows hss
    unfold resolveSpreadsheetIdByStudent
    rw [if_neg (by simp [hss])]
    by_cases hsid : jsTrim req.student_id = ""
    · rw [if_pos hsid]
    · rw [if_neg hsid, if_pos hthrows]
  · intro hsheet hss
    unfold resolveSpreadsheetIdByStudent
    rw [if_neg (by simp [hss])]
    by_cases hsid : jsTrim req.student_id = ""
    · rw [if_pos hsid]
    · rw [if_neg hsid]
      by_cases hth : env.throws = true
      · rw [if_pos hth]
      · rw [if_neg hth, if_pos hsheet]
  · intro hlen hss
    unfold resolveSpreadsheetIdByStudent
    rw [if_neg (by simp [hss])]
    by_cases hsid : jsTrim req.student_id = ""
    · rw [if_pos hsid]
    · rw [if_neg hsid]
      by_cases hth : env.throws = true
      · rw [if_pos hth]
      · rw [if_neg hth]
        by_cases hsh : env.hasSheet = false
        · rw [if_pos hsh]
        · rw [if_neg hsh, if_pos hlen]
  · intro hss hall
    unfold resolveSpreadsheetIdByStudent
    rw [if_neg (by simp [hss])]
    by_cases hsid : jsTrim req.student_id = ""
    · rw [if_pos hsid]
    · rw [if_neg hsid]
      by_cases hth : env.throws = true
      · rw [if_pos hth]
      · rw [if_neg hth]
        by_cases hsh : env.hasSheet = false
        · rw [if_pos hsh]
        · rw [if_neg hsh]
          by_cases hln : env.values.length < 2
          · rw [if_pos hln]
          · rw [if_neg hln]
            exact loopRows_none env _ _ _ _ _ hall
  · intro hss hdec hpre hid hne hp hl
    have hrow : studentRowResult env (studentIdxPlannerId env)
        (studentIdxLink env) r = none := by
      unfold studentRowResult
      rw [if_neg (fun hcon => by
        rcases hp with hp | hp
        · omega
        · exact hcon.2 hp)]
      rcases hl with hl | hl
      · rw [if_neg (by omega)]
      · by_cases h0 : (0 : Int) ≤ studentIdxLink env
        · rw [if_pos h0]
          exact hl
        · rw [if_neg h0]
    unfold resolveSpreadsheetIdByStudent
    rw [if_neg (by simp [hss])]
    by_cases hsid : jsTrim req.student_id = ""
    · rw [if_pos hsid]
    · rw [if_neg hsid]
      by_cases hth : env.throws = true
      · rw [if_pos hth]
      · rw [if_neg hth]
        by_cases hsh : env.hasSheet = false
        · rw [if_pos hsh]
        · rw [if_neg hsh]
          by_cases hln : env.values.length < 2
          · rw [if_pos hln]
          · rw [if_neg hln]
            rw [hdec, loopRows_found env _ _ _ _ pre post r hpre hid hne]
            exact hrow

/-- Witness for C10: a request carrying a spreadsheet_id resolves to it
against any environment, including a throwing one. -/
theorem C10_resolve_by_student_witness :
    resolveSpreadsheetIdByStudent
        ⟨false, true, [], fun _ _ => none⟩ ⟨"SS123", "S001"⟩ =
      some "SS123" ∧
    resolveSpreadsheetIdByStudent
        ⟨false, true, [], fun _ _ => none⟩ ⟨"SS123", "S001"⟩ =
      resolveSpreadsheetIdByStudent
        ⟨true, false, [["生徒ID"], ["S001"]], fun _ _ => none⟩
        ⟨"SS123", "S001"⟩ :=
  (C10_resolve_by_student ⟨false, true, [], fun _ _ => none⟩
    ⟨true, false, [["生徒ID"], ["S001"]], fun _ _ => none⟩
    ⟨"SS123", "S001"⟩ 0 [] []).1 (by decide)
